import Mathlib

/-!
# Verification of the rs-log CSV viewer (`app.py`)

Shallow embedding of the file-discovery (Indexer) and column-presentation
(Presenter) logic of `src/app.py`, together with proofs of the specified
properties.

The program is a Streamlit script.  Its reusable core is pure:

* lines 9–43: directory scan, date-suffix filtering, grouping by date,
  sorted navigation lists (the Indexer);
* lines 59–63: CSV loading wrapped in try/except (the Presenter's `load`);
* lines 66–117: column selection / renaming / percentage formatting,
  row-capped preview and CSV export (the Presenter's `present`/`export`).

External library internals (the CSV tokenizer of `pandas.read_csv`, the
Streamlit widgets) are modelled only at their observable boundary, as the
specification declares them out of scope.  Machine floats appearing in the
pipeline (`pd.to_numeric` produces IEEE-754 binary64 values which
`f"{x:.2f}%"` then formats) are modelled exactly: a binary64 value is the
rational it denotes, produced by `toBinary64` (round-to-nearest,
ties-to-even, for arguments in the normal range — all values in this
development are normal).  All arithmetic is carried out on numerators and
denominators directly, so every definition evaluates inside the kernel.
-/

namespace RsLog

/-! ## Exact model of the numeric pipeline -/

/-- Nearest integer to the fraction `n / d` (for `d > 0`), ties going to
the even integer — the rounding used both by IEEE-754 default rounding
and by Python's fixed-point formatting of a double. -/
def roundHalfEvenFrac (n d : ℤ) : ℤ :=
  let f : ℤ := Int.fdiv n d
  let r2 : ℤ := 2 * (n - f * d)
  if r2 < d then f
  else if d < r2 then f + 1
  else if f % 2 = 0 then f else f + 1

/-- `n / d < 2 ^ e` for a fraction with `n, d > 0` and `e : ℤ`, decided by
cross-multiplication with the power pushed to the positive side. -/
def fracLtTwoZpow (n d e : ℤ) : Bool :=
  if 0 ≤ e then n < 2 ^ e.toNat * d else n * 2 ^ (-e).toNat < d

/-- `2 ^ e ≤ n / d` for a fraction with `n, d > 0` and `e : ℤ`. -/
def twoZpowLeFrac (e n d : ℤ) : Bool :=
  if 0 ≤ e then 2 ^ e.toNat * d ≤ n else d ≤ n * 2 ^ (-e).toNat

/-- Structural (fuel-indexed) binary logarithm: `log2Fuel fuel n` is
`⌊log₂ n⌋` for `n ≥ 1` whenever `fuel ≥ n`. -/
def log2Fuel (fuel n : ℕ) : ℕ :=
  match fuel with
  | 0 => 0
  | fuel + 1 => if 2 ≤ n then log2Fuel fuel (n / 2) + 1 else 0

/-- `⌊log₂ n⌋` for `n ≥ 1` (0 at 0). -/
def natLog2 (n : ℕ) : ℕ := log2Fuel n n

/-- `⌊log₂ (n / d)⌋` for `n, d > 0`: first guess from the bit lengths of
numerator and denominator, then correct by at most one. -/
def ilog2Frac (n d : ℤ) : ℤ :=
  let e0 : ℤ := (natLog2 n.toNat : ℤ) - (natLog2 d.toNat : ℤ)
  if fracLtTwoZpow n d e0 then e0 - 1
  else if twoZpowLeFrac (e0 + 1) n d then e0 + 1
  else e0

/-- IEEE-754 binary64 rounding (round-to-nearest, ties-to-even) of the
positive fraction `n / d`, returned as a fraction `(num, den)` with
positive entries.  The significand is the nearest integer to
`(n/d) · 2^(52-e)` where `e = ⌊log₂ (n/d)⌋`; valid in the normal range
(no subnormal or overflow handling — every number in this development is
normal). -/
def binRoundPos (n d : ℤ) : ℤ × ℤ :=
  let e : ℤ := ilog2Frac n d
  let s : ℤ := 52 - e
  if 0 ≤ s then (roundHalfEvenFrac (n * 2 ^ s.toNat) d, 2 ^ s.toNat)
  else (roundHalfEvenFrac n (d * 2 ^ (-s).toNat) * 2 ^ (-s).toNat, 1)

/-- The binary64 value nearest to the rational `q`, as an exact rational
(rounding is an odd function, so the sign is split off first). -/
def toBinary64 (q : ℚ) : ℚ :=
  if q.num < 0 then
    let r := binRoundPos (-q.num) q.den
    Rat.divInt (-r.1) r.2
  else if q.num = 0 then 0
  else
    let r := binRoundPos q.num q.den
    Rat.divInt r.1 r.2

/-- Two-decimal rendering of a natural number `m` of hundredths, as in
Python `"%.2f"`: integer part, a dot, then exactly two digits. -/
def hundredthsDigits (m : ℕ) : String :=
  toString (m / 100) ++ "." ++ toString (m / 10 % 10) ++ toString (m % 10)

/-- Python's `f"{x:.2f}"` on the double whose exact value is `q`: `q`
rounded to hundredths (ties-to-even) and printed with exactly two
fractional digits, the sign taken from `q` itself (so `-0.001` prints as
`"-0.00"`, as in Python). -/
def formatFixed2 (q : ℚ) : String :=
  if q.num < 0 then "-" ++ hundredthsDigits (roundHalfEvenFrac (-q.num * 100) q.den).toNat
  else hundredthsDigits (roundHalfEvenFrac (q.num * 100) q.den).toNat

/-! ## Data model: cells and tables

A parsed CSV (`pd.read_csv`) is a rectangular table of cells.  The
library parser is out of scope, so a cell records the parser's verdict:

* `num q`  — a cell the numeric coercion (`pd.to_numeric`) maps to the
  binary64 value `q` (given exactly, as a rational);
* `text s` — a textual cell the numeric coercion rejects (coerces to NaN
  under `errors="coerce"`); `s` is its content, carried for identity;
* `na`     — a missing value (NaN). -/

inductive Cell where
  | num (q : ℚ)
  | text (s : String)
  | na
deriving DecidableEq, Repr

/-- A table: a header row of column names and a list of data rows.
`pd.read_csv` yields rectangular tables (every row as long as the
header). -/
structure Table where
  cols : List String
  rows : List (List Cell)
deriving DecidableEq, Repr

/-! ## File Indexer (`app.py` lines 9–43)

A directory is modelled as `Option (List String)`: `none` when the path
does not exist or is not a directory (line 15), `some entries` with the
(unordered) listing of entry names otherwise.  Entry names are matched
against the glob `*.csv` — case-SENSITIVE, as `pathlib` globbing is on a
POSIX system — and against `DATE_SUFFIX_RE = (\d{4}-\d{2}-\d{2})\.csv$`
compiled with `re.IGNORECASE` (line 10).  `\d` is modelled as an ASCII
digit and lowercasing as ASCII lowercasing; every name in the claims is
ASCII.  Both matchers work on the reversed character list, since the
pattern is anchored at the end of the name (the regex body has fixed
width 14, so the only possible match is on the last 14 characters). -/

/-- The glob `*.csv` of line 20 on a reversed name: the name's last four
characters are exactly `.csv` (POSIX `fnmatch` is case-sensitive). -/
def globCsvRev : List Char → Bool
  | v :: s :: c :: dot :: _ => v == 'v' && s == 's' && c == 'c' && dot == '.'
  | _ => false

def globCsv (name : String) : Bool := globCsvRev name.data.reverse

/-- `DATE_SUFFIX_RE.search` on a reversed name: the last 14 characters
are `<4 digits>-<2 digits>-<2 digits>.csv` with the extension matched
case-insensitively (`re.IGNORECASE`); on success, the captured group —
the 10-character date substring. -/
def dateSuffixSearchRev : List Char → Option String
  | v :: s :: c :: dot :: g2 :: g1 :: h2 :: f2 :: f1 :: h1 :: e4 :: e3 :: e2 :: e1 :: _ =>
    if (v.toLower == 'v' && s.toLower == 's' && c.toLower == 'c' && dot == '.') &&
        (h1 == '-' && h2 == '-' && e1.isDigit && e2.isDigit && e3.isDigit && e4.isDigit &&
          f1.isDigit && f2.isDigit && g1.isDigit && g2.isDigit) then
      some (String.mk [e1, e2, e3, e4, '-', f1, f2, '-', g1, g2])
    else none
  | _ => none

def dateSuffixSearch (name : String) : Option String := dateSuffixSearchRev name.data.reverse

/-- The filter of line 20: kept iff the glob `*.csv` matches and
`DATE_SUFFIX_RE.search` finds a match. -/
def scanIncludes (name : String) : Bool := globCsv name && (dateSuffixSearch name).isSome

/-- Python string comparison (used by `sorted` on same-directory `Path`s):
lexicographic by code point, a proper prefix sorting first. -/
def charListLt : List Char → List Char → Bool
  | [], [] => false
  | [], _ :: _ => true
  | _ :: _, [] => false
  | a :: as, b :: bs =>
    if a.toNat < b.toNat then true
    else if b.toNat < a.toNat then false
    else charListLt as bs

def pyStrLt (a b : String) : Bool := charListLt a.data b.data

/-- ASCII lowercasing, modelling `str.lower()` on the ASCII names in
play. -/
def strLower (s : String) : String := String.mk (s.data.map Char.toLower)

/-- The key comparison of line 43: `key=lambda x: x.name.lower()`. -/
def lowerKeyLt (a b : String) : Bool := charListLt (strLower a).data (strLower b).data

/-- Insert `x` into an already-sorted list, after every element not
strictly greater — the insertion is stable, as Python's `sorted` is. -/
def insertSorted (lt : String → String → Bool) (x : String) : List String → List String
  | [] => [x]
  | y :: ys => if lt x y then x :: y :: ys else y :: insertSorted lt x ys

/-- Stable sort by the strict comparison `lt` (insertion sort processing
the input left to right), modelling Python's `sorted`. -/
def sortByLt (lt : String → String → Bool) (l : List String) : List String :=
  l.foldl (fun acc x => insertSorted lt x acc) []

/-- Decidable equality of `Except` results, so that scan/load outcomes
can be evaluated on concrete inputs. -/
instance instDecEqExcept {ε α : Type} [DecidableEq ε] [DecidableEq α] :
    DecidableEq (Except ε α)
  | .error a, .error b =>
    if h : a = b then .isTrue (by rw [h])
    else .isFalse (by intro hh; cases hh; exact h rfl)
  | .error _, .ok _ => .isFalse (by intro h; cases h)
  | .ok _, .error _ => .isFalse (by intro h; cases h)
  | .ok a, .ok b =>
    if h : a = b then .isTrue (by rw [h])
    else .isFalse (by intro hh; cases hh; exact h rfl)

/-- Error taxonomy of the Indexer (spec §7): lines 15–17 vs lines
22–24 of `app.py`. -/
inductive ScanError where
  | directoryNotFound
  | emptyIndex
deriving DecidableEq, Repr

/-- The index of lines 26–35: the insertion-ordered mapping
`date -> files` (a Python dict keyed by first appearance) and
`available_dates`, its keys sorted descending. -/
structure FileIndex where
  dateToFiles : List (String × List String)
  dates : List String
deriving DecidableEq, Repr

/-- `date_to_files.setdefault(date_str, []).append(p)` of line 33. -/
def insertGroup (groups : List (String × List String)) (d name : String) :
    List (String × List String) :=
  match groups with
  | [] => [(d, [name])]
  | (k, v) :: rest =>
    if k == d then (k, v ++ [name]) :: rest else (k, v) :: insertGroup rest d name

/-- The grouping loop of lines 27–33 over the sorted, filtered names
(the `if not m: continue` branch is unreachable for filtered names but
is modelled nonetheless). -/
def buildGroups (names : List String) : List (String × List String) :=
  names.foldl
    (fun acc n =>
      match dateSuffixSearch n with
      | some d => insertGroup acc d n
      | none => acc)
    []

/-- `scan`: lines 15–35.  `none` (missing or non-directory path) is a
`DirectoryNotFoundError`; an existing directory whose filtered listing
is empty is an `EmptyIndexError`; otherwise the index is built from the
name-sorted matching entries and `available_dates` is the key list
sorted descending (line 35). -/
def scan (dir : Option (List String)) : Except ScanError FileIndex :=
  match dir with
  | none => .error .directoryNotFound
  | some entries =>
    let csvPaths := sortByLt pyStrLt (entries.filter scanIncludes)
    if csvPaths.isEmpty then .error .emptyIndex
    else
      let groups := buildGroups csvPaths
      .ok ⟨groups, (sortByLt pyStrLt (groups.map Prod.fst)).reverse⟩

/-- `files_for_date` (line 43): the selected date's group sorted
case-insensitively by name. -/
def filesForDate (idx : FileIndex) (d : String) : List String :=
  sortByLt lowerKeyLt (((idx.dateToFiles.find? (fun p => p.1 == d)).map Prod.snd).getD [])

/-! ## Table Presenter (`app.py` lines 59–117) -/

/-- Error taxonomy of `load` (spec §7): the `try/except` of lines
59–63. -/
inductive LoadError where
  | malformedTable (msg : String)
deriving DecidableEq, Repr

/-- `load` (lines 59–63): the library parse (`pd.read_csv`, out of
scope) either yields a table or fails with a message; any parse failure
is caught and wrapped — never re-raised. -/
def load (parsed : Except String Table) : Except LoadError Table :=
  match parsed with
  | .error e => .error (.malformedTable e)
  | .ok t => .ok t

/-- Lines 70–79. -/
def preferred_columns : List String :=
  ["ticker", "current_up_trend", "current_trend_length", "current_price",
    "1M", "3M", "6M", "1Y"]

/-- Lines 81–86. -/
def performance_column_labels : List (String × String) :=
  [("1M", "1M Performance"), ("3M", "3M Performance"),
    ("6M", "6M Performance"), ("1Y", "1Y Performance")]

/-- Dictionary lookup in `performance_column_labels`. -/
def perfLabel? (c : String) : Option String :=
  (performance_column_labels.find? (fun p => p.1 == c)).map Prod.snd

/-- Membership among the display labels (`display_col in df_to_show.columns`
tests of lines 103–104 iterate over the dict's values). -/
def isPerfLabel (c : String) : Bool := performance_column_labels.any (fun p => p.2 == c)

/-- `available_columns` (line 91): preferred columns present in the
table, in preferred order. -/
def availableColumns (df : Table) : List String :=
  preferred_columns.filter (fun c => df.cols.contains c)

/-- `missing_columns` (line 92): preferred columns absent from the
table, in preferred order. -/
def missingColumns (df : Table) : List String :=
  preferred_columns.filter (fun c => !df.cols.contains c)

/-- Cell of row `r` under the column named `c` (columns assumed
distinct, as `pandas` label indexing requires for `df[cols]`). -/
def getByName (cols : List String) (r : List Cell) (c : String) : Cell :=
  match cols.findIdx? (fun x => x == c) with
  | some i => r.getD i .na
  | none => .na

/-- `df[available_columns]` (line 97): label-based column selection. -/
def selectCols (df : Table) (cs : List String) : Table :=
  ⟨cs, df.rows.map (fun r => cs.map (getByName df.cols r))⟩

/-- `df_to_show.rename(columns=rename_map)` (lines 99–101): each column
name present in the label map is replaced by its display label (when the
map is empty the rename is skipped, which has the same effect). -/
def renamePerf (df : Table) : Table :=
  ⟨df.cols.map (fun c => (perfLabel? c).getD c), df.rows⟩

/-- The per-cell effect of line 105–107:
`pd.to_numeric(col, errors="coerce").map(lambda x: f"{x:.2f}%" if pd.notna(x) else "")`. -/
def formatCell : Cell → Cell
  | .num q => .text (formatFixed2 q ++ "%")
  | .text _ => .text ""
  | .na => .text ""

/-- The loop of lines 103–107: every column whose (post-rename) name is
a performance display label has its cells reformatted. -/
def applyPerfFormat (df : Table) : Table :=
  ⟨df.cols,
    df.rows.map (fun r =>
      (df.cols.zip r).map (fun cv => if isPerfLabel cv.1 then formatCell cv.2 else cv.2))⟩

/-- `df_to_show` as of line 107: branch on `show_all_cols`
(lines 88–97), then rename (99–101), then the formatting loop
(103–107). -/
def presentTable (df : Table) (showAllCols : Bool) : Table :=
  let dfShow := if showAllCols then df else selectCols df (availableColumns df)
  applyPerfFormat (renamePerf dfShow)

/-- The missing-column report of lines 92–96: emitted (as `st.info`)
only on the filtered branch. -/
def presentMissing (df : Table) (showAllCols : Bool) : List String :=
  if showAllCols then [] else missingColumns df

/-- `df_to_show.head(show_rows)` (line 109). -/
def headRows (df : Table) (n : ℕ) : Table := ⟨df.cols, df.rows.take n⟩

/-- A Streamlit slider's static configuration: `st.slider(label, lo, hi,
dflt)` constrains the returned value to `[lo, hi]` and starts at
`dflt`. -/
structure Slider where
  lo : ℕ
  hi : ℕ
  dflt : ℕ
deriving DecidableEq, Repr

/-- Line 67: `st.slider("Max rows to show", 10, 500, 100)`. -/
def showRowsSlider : Slider := ⟨10, 500, 100⟩

/-- Lines 88–117 as one pass: the displayed table (`st.dataframe` of
line 109, capped at `showRows`) and the exported table (line 114:
`df_to_show.to_csv(index=False)` — the full transformed table, no row
cap; its UTF-8 serialization by the library is a function of this
table). -/
def render (df : Table) (showAllCols : Bool) (showRows : ℕ) : Table × Table :=
  let dfToShow := presentTable df showAllCols
  (headRows dfToShow showRows, dfToShow)

/-- `df.copy()` (lines 89 and 97): a fresh table with the same
contents, sharing no mutable storage with the original. -/
def copyTable (t : Table) : Table := ⟨t.cols, t.rows⟩

/-- The state visible across lines 88–107: the originally parsed `df`
and the working `df_to_show`.  In-place cell assignment (line 105)
writes only to the `dfToShow` component, because both branches bind
`df_to_show` to a `.copy()`. -/
structure PresentEnv where
  df : Table
  dfToShow : Table
deriving DecidableEq, Repr

/-- Lines 88–107 with the original table threaded explicitly: the
branch binds `df_to_show` to a copy, the rename rebinds it, the
formatting loop updates it in place.  No step writes to `df`. -/
def presentSteps (df : Table) (showAllCols : Bool) : PresentEnv :=
  let e0 : PresentEnv :=
    if showAllCols then ⟨df, copyTable df⟩
    else ⟨df, copyTable (selectCols df (availableColumns df))⟩
  let e1 : PresentEnv := ⟨e0.df, renamePerf e0.dfToShow⟩
  ⟨e1.df, applyPerfFormat e1.dfToShow⟩

/-- Modelled from the spec: the repository's second, near-duplicate
variant ("Variant B") is not under `src/` (only `app.py`, Variant A,
is).  Per the spec, Variant B's download serves the original file's raw
bytes unmodified, not a re-serialization of parsed data. -/
def variantB_export (fileBytes : List ℕ) : List ℕ := fileBytes

/-! ## Spec-side predicates (for comparison with the code) -/

/-- The name ends with `.csv` case-insensitively — the spec's reading of
the extension filter. -/
def endsWithCsvCI (name : String) : Bool :=
  match name.data.reverse with
  | v :: s :: c :: dot :: _ => v.toLower == 'v' && s.toLower == 's' && c.toLower == 'c' && dot == '.'
  | _ => false

/-- The inclusion rule exactly as the specification words it: ends with
`.csv` case-insensitively AND matches the trailing
`<4 digits>-<2 digits>-<2 digits>.csv` pattern. -/
def specIncludes (name : String) : Bool :=
  endsWithCsvCI name && (dateSuffixSearch name).isSome

/-- The inclusion rule the code actually implements on a POSIX system:
the last 14 characters are `<4 digits>-<2 digits>-<2 digits>.csv` with a
lowercase extension (the case-sensitive glob prefilter forces the
lowercase `.csv`; the regex's `IGNORECASE` then adds nothing). -/
def datedCsvNameRev : List Char → Bool
  | v :: s :: c :: dot :: g2 :: g1 :: h2 :: f2 :: f1 :: h1 :: e4 :: e3 :: e2 :: e1 :: _ =>
    (v == 'v' && s == 's' && c == 'c' && dot == '.') &&
      (h1 == '-' && h2 == '-' && e1.isDigit && e2.isDigit && e3.isDigit && e4.isDigit &&
        f1.isDigit && f2.isDigit && g1.isDigit && g2.isDigit)
  | _ => false

def datedCsvName (name : String) : Bool := datedCsvNameRev name.data.reverse

end RsLog

namespace RsLog

set_option maxRecDepth 10000

/-! ## Helper lemmas -/

/-- The binary64 value the parser produces for the decimal literal
`12.345` is strictly above `12.345` (it is `6949617174986097 · 2⁻⁴⁹`),
which is why the two-decimal rendering rounds up. -/
theorem toBinary64_12345 :
    toBinary64 (Rat.divInt 12345 1000) = Rat.divInt 6949617174986097 (2 ^ 49) := by
  decide

theorem formatFixed2_12345 :
    formatFixed2 (toBinary64 (Rat.divInt 12345 1000)) = "12.35" := by decide

theorem isSome_if {α : Type} (c : Bool) (x : α) :
    (if c = true then some x else none).isSome = c := by cases c <;> simp

theorem lower_v : ('v'.toLower == 'v') = true := by decide

theorem lower_s : ('s'.toLower == 's') = true := by decide

theorem lower_c : ('c'.toLower == 'c') = true := by decide

/-- On a name already ending in a literal `.csv` (the glob), the
case-insensitive extension test of the regex is redundant: the line-20
filter agrees with the all-lowercase-extension pattern on every name. -/
theorem scanIncludesRev_eq : ∀ l : List Char,
    (globCsvRev l && (dateSuffixSearchRev l).isSome) = datedCsvNameRev l := by
  intro l
  rcases l with _ | ⟨v, _ | ⟨s, _ | ⟨c, _ | ⟨dot, _ | ⟨g2, _ | ⟨g1, _ | ⟨h2, _ | ⟨f2, _ | ⟨f1, _ | ⟨h1, _ | ⟨e4, _ | ⟨e3, _ | ⟨e2, _ | ⟨e1, rest⟩⟩⟩⟩⟩⟩⟩⟩⟩⟩⟩⟩⟩⟩ <;>
    simp only [globCsvRev, dateSuffixSearchRev, datedCsvNameRev, Option.isSome_none,
      Bool.and_false, isSome_if]
  case _ =>
    cases hv : v == 'v' <;> cases hs : s == 's' <;> cases hc : c == 'c' <;>
      cases hdot : dot == '.' <;> simp_all [lower_v, lower_s, lower_c]

theorem map_congr_on {α β : Type} (f g : α → β) :
    ∀ l : List α, (∀ a ∈ l, f a = g a) → l.map f = l.map g := by
  intro l h
  induction l with
  | nil => rfl
  | cons x xs ih =>
    simp only [List.map_cons]
    rw [h x (by simp), ih (fun a ha => h a (by simp [ha]))]

theorem map_id_on {α : Type} (f : α → α) :
    ∀ l : List α, (∀ a ∈ l, f a = a) → l.map f = l := by
  intro l h
  induction l with
  | nil => rfl
  | cons x xs ih =>
    simp only [List.map_cons]
    rw [h x (by simp), ih (fun a ha => h a (by simp [ha]))]

theorem contains_iff {α : Type} [BEq α] [LawfulBEq α] (l : List α) (a : α) :
    l.contains a = true ↔ a ∈ l := List.elem_iff

/-! ## Claims -/

/-- C1, counterexample.  The claim says that with `showAllColumns = true`
every column passes through unmodified — no renaming via the
performance-label map and no reformatting.  On the code the rename and
formatting loop (lines 99–107) runs unconditionally: a table with the
single column `1M` and numeric value `12` comes out with the column
renamed to `1M Performance` and the value reformatted to the string
`"12.00%"`. -/
theorem C1_counterexample :
    presentTable ⟨["1M"], [[Cell.num 12]]⟩ true ≠ ⟨["1M"], [[Cell.num 12]]⟩
    ∧ presentTable ⟨["1M"], [[Cell.num 12]]⟩ true
      = ⟨["1M Performance"], [[Cell.text "12.00%"]]⟩ := by
  refine ⟨by decide, by decide⟩

/-- C1, amended.  With `showAllColumns = true`, `present` keeps every
original column (no selection, and no missing-column report), but it
still renames performance columns through the label map and reformats
their cells; a rectangular table none of whose columns is a performance
key or label does pass through unmodified. -/
theorem C1_showAll_amended : ∀ df : Table,
    (presentTable df true).cols = df.cols.map (fun c => (perfLabel? c).getD c)
    ∧ presentMissing df true = []
    ∧ ((∀ r ∈ df.rows, r.length = df.cols.length) →
        (∀ c ∈ df.cols, perfLabel? c = none ∧ isPerfLabel c = false) →
        presentTable df true = df) := by
  intro df
  obtain ⟨cols, rows⟩ := df
  refine ⟨rfl, rfl, fun hrect hnoperf => ?_⟩
  have hcols : cols.map (fun c => (perfLabel? c).getD c) = cols :=
    map_id_on _ cols (fun c hc => by rw [(hnoperf c hc).1]; rfl)
  show applyPerfFormat (renamePerf ⟨cols, rows⟩) = ⟨cols, rows⟩
  unfold renamePerf applyPerfFormat
  simp only
  rw [hcols]
  congr 1
  apply map_id_on
  intro r hr
  have h1 : (cols.zip r).map (fun cv => if isPerfLabel cv.1 = true then formatCell cv.2 else cv.2)
      = (cols.zip r).map Prod.snd := by
    apply map_congr_on
    intro cv hcv
    obtain ⟨a, b⟩ := cv
    have ha : a ∈ cols := (List.of_mem_zip hcv).1
    simp [(hnoperf a ha).2]
  rw [h1, List.map_snd_zip _ _ (le_of_eq (hrect r hr))]

/-- C1, witness for the amended theorem's pass-through part at a
concrete perf-free table. -/
theorem C1_witness :
    presentTable ⟨["ticker"], [[Cell.text "AAPL"]]⟩ true
      = ⟨["ticker"], [[Cell.text "AAPL"]]⟩ :=
  (C1_showAll_amended ⟨["ticker"], [[Cell.text "AAPL"]]⟩).2.2 (by decide) (by decide)

/-- C2.  For every table whose columns are exactly `ticker`,
`current_price`, `1M` (in any order), presenting with
`showAllColumns = false` yields the column order
`ticker, current_price, 1M Performance`; in a concrete such table the
numeric value `12.345` (that is, the binary64 value the parser assigns
to it) in `1M` renders as `"12.35%"`, and a non-numeric or missing value
renders as `""` — other columns' cells pass through unchanged. -/
theorem C2_selected_columns_and_formatting :
    (∀ df : Table, df.cols.Perm ["ticker", "current_price", "1M"] →
      (presentTable df false).cols = ["ticker", "current_price", "1M Performance"])
    ∧ presentTable ⟨["ticker", "current_price", "1M"],
        [[.text "AAPL", .num 1, .num (toBinary64 (Rat.divInt 12345 1000))],
          [.text "MSFT", .num 2, .text "n/a"],
          [.text "GOOG", .num 3, .na]]⟩ false
      = ⟨["ticker", "current_price", "1M Performance"],
        [[.text "AAPL", .num 1, .text "12.35%"],
          [.text "MSFT", .num 2, .text ""],
          [.text "GOOG", .num 3, .text ""]]⟩ := by
  constructor
  · intro df h
    obtain ⟨cols, rows⟩ := df
    have h' : cols.Perm ["ticker", "current_price", "1M"] := h
    have hm := List.mem_permutations'.mpr h'
    fin_cases hm <;> rfl
  · decide

/-- C2, witness: the quantified part applied to a column order different
from the preferred one. -/
theorem C2_witness :
    (presentTable ⟨["1M", "ticker", "current_price"], []⟩ false).cols
      = ["ticker", "current_price", "1M Performance"] :=
  C2_selected_columns_and_formatting.1 ⟨["1M", "ticker", "current_price"], []⟩ (by decide)

/-- C3.  For every directory listing that is a permutation of
`a-2024-01-01.csv`, `b-2024-01-01.csv`, `c-2023-12-31.csv`, `scan`
succeeds, `available_dates` is `["2024-01-01", "2023-12-31"]` (sorted
descending), and the `2024-01-01` group is
`["a-2024-01-01.csv", "b-2024-01-01.csv"]` sorted case-insensitively by
name. -/
theorem C3_example_directory : ∀ l : List String,
    l.Perm ["a-2024-01-01.csv", "b-2024-01-01.csv", "c-2023-12-31.csv"] →
    (scan (some l)).toOption.map FileIndex.dates = some ["2024-01-01", "2023-12-31"]
    ∧ (scan (some l)).toOption.map (fun i => filesForDate i "2024-01-01")
      = some ["a-2024-01-01.csv", "b-2024-01-01.csv"] := by
  intro l h
  have hm := List.mem_permutations'.mpr h
  fin_cases hm <;> exact ⟨by decide, by decide⟩

/-- C3, witness at a concrete listing order. -/
theorem C3_witness :
    (scan (some ["c-2023-12-31.csv", "a-2024-01-01.csv", "b-2024-01-01.csv"])).toOption.map
        FileIndex.dates = some ["2024-01-01", "2023-12-31"]
    ∧ (scan (some ["c-2023-12-31.csv", "a-2024-01-01.csv", "b-2024-01-01.csv"])).toOption.map
        (fun i => filesForDate i "2024-01-01")
      = some ["a-2024-01-01.csv", "b-2024-01-01.csv"] :=
  C3_example_directory ["c-2023-12-31.csv", "a-2024-01-01.csv", "b-2024-01-01.csv"] (by decide)

/-- C4.  `scan` on a missing (or non-directory) path fails with
`DirectoryNotFoundError` and produces no index; `scan` on an existing
directory none of whose entries passes the line-20 filter fails with the
distinct `EmptyIndexError`; the two error values are different, so the
conditions are never conflated. -/
theorem C4_error_taxonomy :
    scan none = .error .directoryNotFound
    ∧ (∀ entries : List String, entries.filter scanIncludes = [] →
        scan (some entries) = .error .emptyIndex)
    ∧ ScanError.directoryNotFound ≠ ScanError.emptyIndex := by
  refine ⟨rfl, fun entries h => ?_, by decide⟩
  simp only [scan, h]
  rfl

/-- C4, witness: a directory holding only a non-matching name. -/
theorem C4_witness : scan (some ["notes.csv"]) = .error .emptyIndex :=
  C4_error_taxonomy.2.1 ["notes.csv"] (by decide)

/-- C5, counterexample.  The claim says a file ending in
`-2024-01-01.CSV` is included.  The spec-worded predicate (ends with
`.csv` case-insensitively and matches the trailing date pattern) indeed
accepts `a-2024-01-01.CSV`, but the code's glob prefilter
(`OUTPUT_DIR.glob("*.csv")`, case-sensitive on a POSIX system) rejects
it before the case-insensitive regex is consulted: the file is excluded
and a directory holding only it fails with `EmptyIndexError`. -/
theorem C5_counterexample :
    specIncludes "a-2024-01-01.CSV" = true
    ∧ scanIncludes "a-2024-01-01.CSV" = false
    ∧ scan (some ["a-2024-01-01.CSV"]) = .error .emptyIndex := by
  refine ⟨by decide, by decide, by decide⟩

/-- C5, amended.  `scan` includes exactly the entries whose name ends
with `<4 digits>-<2 digits>-<2 digits>.csv` with a lowercase `.csv`
extension: the glob prefilter is case-sensitive, so the regex's
`IGNORECASE` adds nothing.  Names ending in uppercase `.CSV` are
excluded, as are `notes.csv` and `report-2024-1-1.csv`; non-matching
entries are skipped silently, not an error. -/
theorem C5_inclusion_amended :
    (∀ name : String, scanIncludes name = datedCsvName name)
    ∧ datedCsvName "a-2024-01-01.csv" = true
    ∧ datedCsvName "A-2024-01-01.csv" = true
    ∧ datedCsvName "notes.csv" = false
    ∧ datedCsvName "report-2024-1-1.csv" = false
    ∧ datedCsvName "a-2024-01-01.CSV" = false
    ∧ (scan (some ["notes.csv", "report-2024-1-1.csv", "a-2024-01-01.csv"])).toOption.map
        (fun i => filesForDate i "2024-01-01") = some ["a-2024-01-01.csv"] := by
  exact ⟨fun name => scanIncludesRev_eq name.data.reverse,
    by decide, by decide, by decide, by decide, by decide, by decide⟩

/-- C6.  With `showAllColumns = false`, the output is restricted to the
intersection of the preferred-column list with the table's columns,
preserving preferred order (the selection is a sublist of
`preferred_columns`); every preferred column absent from the table is in
the non-fatal report, and rendering continues: the display table has
exactly the available columns (through the rename map) and one row per
input row. -/
theorem C6_filtered_selection : ∀ df : Table,
    (∀ c, c ∈ availableColumns df ↔ c ∈ preferred_columns ∧ c ∈ df.cols)
    ∧ List.Sublist (availableColumns df) preferred_columns
    ∧ (∀ c, c ∈ presentMissing df false ↔ c ∈ preferred_columns ∧ c ∉ df.cols)
    ∧ (presentTable df false).cols
      = (availableColumns df).map (fun c => (perfLabel? c).getD c)
    ∧ (presentTable df false).rows.length = df.rows.length := by
  intro df
  refine ⟨fun c => ?_, List.filter_sublist _, fun c => ?_, rfl, ?_⟩
  · simp [availableColumns, List.mem_filter, contains_iff]
  · simp [presentMissing, missingColumns, List.mem_filter, contains_iff]
  · simp [presentTable, selectCols, renamePerf, applyPerfFormat]

/-- C7.  The row cap `maxRows` (the slider value) truncates only the
displayed table — the export is the same table for every slider value —
and it truncates after the column transformation: the preview is
`take maxRows` of the transformed rows, so a preview never exceeds
`maxRows` rows; the slider is configured with bounds 10 and 500 and
default 100. -/
theorem C7_row_cap : ∀ (df : Table) (showAll : Bool) (n m : ℕ),
    (render df showAll n).2 = (render df showAll m).2
    ∧ (render df showAll n).1.cols = (presentTable df showAll).cols
    ∧ (render df showAll n).1.rows = (presentTable df showAll).rows.take n
    ∧ (render df showAll n).1.rows.length = min n (presentTable df showAll).rows.length
    ∧ showRowsSlider.lo = 10 ∧ showRowsSlider.hi = 500 ∧ showRowsSlider.dflt = 100
    ∧ showRowsSlider.lo ≤ showRowsSlider.dflt ∧ showRowsSlider.dflt ≤ showRowsSlider.hi := by
  intro df showAll n m
  exact ⟨rfl, rfl, rfl, List.length_take n _, rfl, rfl, rfl, by decide, by decide⟩

/-- C8.  Variant B's export returns the source file's bytes unmodified,
so the exported payload is byte-identical to the file's content.
(Settled against the spec-modelled `variantB_export`: Variant B's source
is not in the repository snapshot.) -/
theorem C8_raw_byte_export : ∀ fileBytes : List ℕ,
    variantB_export fileBytes = fileBytes := fun _ => rfl

/-- C9.  Whenever the parse of the selected file's content fails, `load`
returns `MalformedTableError` wrapping the parse failure's message; and
`load` is total — every outcome is either a parsed table or a
`MalformedTableError`, never an unhandled fault, so the caller can
recover by selecting a different file. -/
theorem C9_malformed_table :
    (∀ msg : String, load (.error msg) = .error (.malformedTable msg))
    ∧ (∀ parsed : Except String Table,
        (∃ t, load parsed = .ok t) ∨ (∃ msg, load parsed = .error (.malformedTable msg))) := by
  refine ⟨fun msg => rfl, fun parsed => ?_⟩
  cases parsed with
  | error e => exact Or.inr ⟨e, rfl⟩
  | ok t => exact Or.inl ⟨t, rfl⟩

/-- C10.  Producing the display table and the export payload leaves the
originally parsed table unchanged, for every combination of
`showAllColumns` and `maxRows`: stepping through lines 88–107 with the
state threaded explicitly returns the original `df` untouched, the
working copy equals the pure presentation, and both the preview and the
export are derived from that working copy alone. -/
theorem C10_frame : ∀ (df : Table) (showAll : Bool),
    (presentSteps df showAll).df = df
    ∧ (presentSteps df showAll).dfToShow = presentTable df showAll
    ∧ (∀ n, render df showAll n
        = (headRows (presentSteps df showAll).dfToShow n, (presentSteps df showAll).dfToShow)) := by
  intro df showAll
  cases showAll <;> exact ⟨rfl, rfl, fun n => rfl⟩

end RsLog
